import Mathlib

/-
Verification of the `dynamodb` package of saidmu/acloud (src/dynamodb/dynamodb.go),
a thin façade over the AWS DynamoDB client SDK.

Shallow embedding conventions:
* The external DynamoDB client is modelled by backend functions passed in as
  parameters.  A call that can fail returns `Option ε` (`none` = success,
  `some e` = the Go `err`) or `Except ε β` when it also produces data.
* Every operation returns, besides its Go result, the ordered trace of backend
  requests it issued, so that "issues exactly n requests" is statable.
* Item maps (`map[string]*dynamodb.AttributeValue`) are opaque: an arbitrary
  type parameter `ι` (single items) or `α` (batch items); pagination keys
  (`LastEvaluatedKey` / `ExclusiveStartKey`) are `Option κ` (`none` = Go `nil`).
* The AWS `expression` builder package is external SDK code; its `Build()`
  outcome is a parameter (`Except ε _`), and for `AddNumber` the update
  expression tree `expression.Add(expression.Name(name), expression.Value(n))`
  is kept as a structured value so the theorem can inspect it.
-/

namespace Acloud

/-! ## WriteRecord (dynamodb.go lines 27-38)

Go:
```
func WriteRecord(client, data Payload, table string) error {
    item, err := data.Payload()
    if err != nil { return err }
    input := &dynamodb.PutItemInput{Item: item, TableName: aws.String(table)}
    _, err = client.PutItem(input)
    if err != nil { return err }
    return nil
}
```
`payload` is the outcome of `data.Payload()`; `put` is `client.PutItem`
restricted to the item (the table name is recorded in the request trace).
The first trace component lists the put-item requests issued, as
(table, item) pairs. -/
def WriteRecord {ι ε : Type} (payload : Except ε ι) (put : ι → Option ε)
    (table : String) : List (String × ι) × Option ε :=
  match payload with
  | .error e => ([], some e)
  | .ok item => ([(table, item)], put item)

/-! ## WriteRecords (dynamodb.go lines 41-67)

Go computes `length := int(math.Ceil(float64(len(data)) / float64(25)))` and
runs `for i := 0; i < length; i++`, sending `data[i*25:(i+1)*25]` while
`i < length-1` and `data[i*25:]` for the last chunk, aborting on the first
`BatchWriteItem` error.  `float64` arithmetic is exact here for every
attainable slice length (below 2^51), so the count is the exact ceiling. -/

/-- Number of batch-write chunks for `n` items: `⌈n / 25⌉`. -/
def batchCount (n : Nat) : Nat := (n + 24) / 25

/-- Chunk sent on loop iteration `i` when the loop bound is `L`: the Go
slice `data[i*25:(i+1)*25]` while `i < L-1`, and `data[i*25:]` on the last
iteration. -/
def chunkAtL {α : Type} (data : List α) (L i : Nat) : List α :=
  if i < L - 1 then (data.drop (i * 25)).take 25
  else data.drop (i * 25)

/-- Chunk sent on loop iteration `i` of `WriteRecords` on `data`. -/
def chunkAt {α : Type} (data : List α) (i : Nat) : List α :=
  chunkAtL data (batchCount data.length) i

/-- Loop of `WriteRecords`: iteration counter `i`, with `fuel = length - i`
remaining iterations (so `fuel = 0` is the loop exit `i ≥ length`).
`bw` is `client.BatchWriteItem` applied to the chunk (the table name is
constant across requests and omitted from the trace).  Returns the trace of
issued chunks and the Go `error` result. -/
def writeRecordsAux {α ε : Type} (bw : List α → Option ε) (data : List α)
    (length : Nat) : Nat → Nat → List (List α) × Option ε
  | _, 0 => ([], none)
  | i, fuel + 1 =>
    match bw (chunkAtL data length i) with
    | some e => ([chunkAtL data length i], some e)
    | none =>
      let r := writeRecordsAux bw data length (i + 1) fuel
      (chunkAtL data length i :: r.1, r.2)

/-- `WriteRecords`: chunk `data` into groups of at most 25 and issue one
batch-write per chunk, in order, aborting on the first error. -/
def WriteRecords {α ε : Type} (bw : List α → Option ε) (data : List α) :
    List (List α) × Option ε :=
  writeRecordsAux bw data (batchCount data.length) 0 (batchCount data.length)

/-! ## Query pagination (dynamodb.go lines 74-101 and 104-129)

Both `QueryRecords` and `QueryRecordWithFilter` first build the expression
(abstracted as `build : Except ε Unit`, since the `expression` package is
external SDK code), then run the identical loop

```
for {
    result, err := client.Query(input)
    if err != nil { return nil, err }
    output = append(output, result.Items...)
    if result.LastEvaluatedKey == nil { break }
    input.ExclusiveStartKey = result.LastEvaluatedKey
}
return output, nil
```

The backend `q` is `client.Query`, indexed by the call number and by the
`ExclusiveStartKey` currently set on the (otherwise constant) input.  The
loop has no bound in the source, so the embedding takes fuel: the result is
`none` when the loop is still running after `fuel` iterations.  On
completion it yields the trace of `ExclusiveStartKey` values sent (one per
request; `none` on the first request, where Go leaves the field unset), the
returned item list, and the Go `error`. -/

/-- One page of a query response: `Items` and `LastEvaluatedKey`. -/
structure QueryResp (ι κ : Type) where
  items : List ι
  lastKey : Option κ
  deriving DecidableEq

/-- Pagination loop shared by `QueryRecords` and `QueryRecordWithFilter`.
Go's `return nil, err` is `(trace, [], some e)`: the accumulated `output`
is discarded. -/
def queryAux {ι κ ε : Type} (q : Nat → Option κ → Except ε (QueryResp ι κ)) :
    Nat → Nat → Option κ → List ι → List (Option κ) →
    Option (List (Option κ) × List ι × Option ε)
  | 0, _, _, _, _ => none
  | fuel + 1, i, cursor, acc, trace =>
    match q i cursor with
    | .error e => some (trace ++ [cursor], [], some e)
    | .ok r =>
      match r.lastKey with
      | none => some (trace ++ [cursor], acc ++ r.items, none)
      | some k => queryAux q fuel (i + 1) (some k) (acc ++ r.items)
          (trace ++ [cursor])

/-- `QueryRecords`: build the key-condition + filter expression, return its
error on failure (zero requests), else page through results. -/
def QueryRecords {ι κ ε : Type} (build : Except ε Unit)
    (q : Nat → Option κ → Except ε (QueryResp ι κ)) (fuel : Nat) :
    Option (List (Option κ) × List ι × Option ε) :=
  match build with
  | .error e => some ([], [], some e)
  | .ok _ => queryAux q fuel 0 none [] []

/-- `QueryRecordWithFilter`: identical loop; only the expression construction
(caller-supplied key condition) differs, which the abstract `build` absorbs. -/
def QueryRecordWithFilter {ι κ ε : Type} (build : Except ε Unit)
    (q : Nat → Option κ → Except ε (QueryResp ι κ)) (fuel : Nat) :
    Option (List (Option κ) × List ι × Option ε) :=
  match build with
  | .error e => some ([], [], some e)
  | .ok _ => queryAux q fuel 0 none [] []

/-- Cursor sent on request `j` when the backend serves page `P i` on call
`i`: the first request carries no `ExclusiveStartKey` (Go leaves it unset),
and every later request carries the previous page's `LastEvaluatedKey`. -/
def cursorAt {ι κ : Type} (P : Nat → QueryResp ι κ) : Nat → Option κ
  | 0 => none
  | j + 1 => (P j).lastKey

/-- A query response on which the pagination loop stops: an error, or a
page whose `LastEvaluatedKey` is Go `nil`. -/
def IsTerminal {ι κ ε : Type} : Except ε (QueryResp ι κ) → Prop
  | .error _ => True
  | .ok r => r.lastKey = none

/-! ## AddNumber (dynamodb.go lines 132-150) -/

/-- Update expression tree: `expression.Add(expression.Name(name),
expression.Value(number))` is the only shape this package builds. -/
inductive UpdateExprTree where
  | add (name : String) (number : Int)
  deriving DecidableEq

/-- An `UpdateItemInput` as assembled by `AddNumber`: table name, key
mapping, and the update expression. -/
structure UpdateItemIn (κ' : Type) where
  table : String
  key : κ'
  update : UpdateExprTree

/-- `AddNumber`: build the `add` update expression; on build failure return
the error with no update-item call, else issue exactly one `UpdateItem` and
return its error. -/
def AddNumber {κ' ε : Type} (build : UpdateExprTree → Except ε Unit)
    (updateItem : UpdateItemIn κ' → Option ε) (table : String) (key : κ')
    (name : String) (number : Int) : List (UpdateItemIn κ') × Option ε :=
  match build (UpdateExprTree.add name number) with
  | .error e => ([], some e)
  | .ok _ =>
    ([⟨table, key, UpdateExprTree.add name number⟩],
      updateItem ⟨table, key, UpdateExprTree.add name number⟩)

/-! ## PrettyStructPrint (dynamodb.go lines 153-159)

Go:
```
func PrettyStructPrint(data interface{}) {
    marshalData, err := json.Marshal(data)
    if err != nil { log.Println(err.Error()) }
    fmt.Println(string(marshalData))
}
```
`marshal` is the outcome of `json.Marshal`.  The function has no return
value (nothing is propagated); the embedding returns the list of log lines
and the list of stdout lines.  On a marshal error `marshalData` is Go `nil`,
so `fmt.Println(string(nil))` still prints one (empty) line. -/
def PrettyStructPrint (marshal : Except String String) :
    List String × List String :=
  match marshal with
  | .error e => ([e], [""])
  | .ok s => ([], [s])

/-! ## Helper lemmas: the WriteRecords loop -/

theorem range_map_shift {β : Type} (f : Nat → β) (n i : Nat) :
    f i :: ((List.range n).map fun j => f (i + 1 + j)) =
      (List.range (n + 1)).map fun j => f (i + j) := by
  rw [List.range_succ_eq_map, List.map_cons, List.map_map]
  refine congrArg₂ _ (by simp) ?_
  refine List.map_congr_left fun a _ => ?_
  simp only [Function.comp_apply]
  exact congrArg f (by omega)

theorem writeRecordsAux_success {α ε : Type} (bw : List α → Option ε)
    (data : List α) :
    ∀ fuel i, (∀ j, j < fuel → bw (chunkAt data (i + j)) = none) →
      writeRecordsAux bw data (batchCount data.length) i fuel =
        ((List.range fuel).map fun j => chunkAt data (i + j), none) := by
  intro fuel
  induction fuel with
  | zero => intro i _; rfl
  | succ n ih =>
    intro i h
    have h0 : bw (chunkAtL data (batchCount data.length) i) = none := by
      have h00 := h 0 (Nat.succ_pos n)
      simpa [chunkAt] using h00
    have hrec := ih (i + 1) (fun j hj => by
      have hx := h (j + 1) (by omega)
      have he : i + (j + 1) = i + 1 + j := by omega
      rwa [he] at hx)
    simp only [writeRecordsAux, h0, hrec]
    have hs := range_map_shift (chunkAt data) n i
    simpa [chunkAt] using congrArg (fun l => (l, (none : Option ε))) hs

theorem writeRecordsAux_firstFail {α ε : Type} (bw : List α → Option ε)
    (data : List α) :
    ∀ k fuel i e, k < fuel → bw (chunkAt data (i + k)) = some e →
      (∀ j, j < k → bw (chunkAt data (i + j)) = none) →
      writeRecordsAux bw data (batchCount data.length) i fuel =
        ((List.range (k + 1)).map fun j => chunkAt data (i + j), some e) := by
  intro k
  induction k with
  | zero =>
    intro fuel i e hk hfail _
    cases fuel with
    | zero => omega
    | succ f =>
      have h0 : bw (chunkAtL data (batchCount data.length) i) = some e := by
        simpa [chunkAt] using hfail
      simp [writeRecordsAux, h0, chunkAt, List.range_succ]
  | succ m ih =>
    intro fuel i e hk hfail hok
    cases fuel with
    | zero => omega
    | succ f =>
      have h0 : bw (chunkAtL data (batchCount data.length) i) = none := by
        have h00 := hok 0 (Nat.succ_pos m)
        simpa [chunkAt] using h00
      have hfail' : bw (chunkAt data (i + 1 + m)) = some e := by
        have he : i + (m + 1) = i + 1 + m := by omega
        rwa [he] at hfail
      have hok' : ∀ j, j < m → bw (chunkAt data (i + 1 + j)) = none := by
        intro j hj
        have hx := hok (j + 1) (by omega)
        have he : i + (j + 1) = i + 1 + j := by omega
        rwa [he] at hx
      have hrec := ih f (i + 1) e (by omega) hfail' hok'
      simp only [writeRecordsAux, h0, hrec]
      have hs := range_map_shift (chunkAt data) (m + 1) i
      simpa [chunkAt] using congrArg (fun l => (l, (some e : Option ε))) hs

/-! ## C1: WriteRecords chunk counts and sizes -/

/-- C1 counterexample: on the input sequence of length 0 `WriteRecords`
issues zero batch-write requests, not exactly one as claimed for
"length 0-25". -/
theorem writeRecords_len0_counterexample :
    ¬ ((WriteRecords (fun _ => (none : Option Unit))
        ([] : List Nat)).1.length = 1) := by decide

/-- C1 (amended): with a succeeding backend, `WriteRecords` on the empty
sequence issues zero batch-write requests; on a sequence of length 1-25 it
issues exactly one; on length L it issues `⌈L/25⌉` requests, namely the
chunks `chunkAt data 0, 1, ...` in order, each request before the last
containing exactly 25 items and the last containing `L mod 25` items (or
25 if L is divisible by 25). -/
theorem writeRecords_request_count {α ε : Type} (bw : List α → Option ε)
    (data : List α) (hbw : ∀ c, bw c = none) :
    (WriteRecords bw data).1 =
      (List.range (batchCount data.length)).map (chunkAt data) ∧
    (WriteRecords bw data).1.length = batchCount data.length ∧
    (data.length = 0 → (WriteRecords bw data).1.length = 0) ∧
    (1 ≤ data.length → data.length ≤ 25 →
      (WriteRecords bw data).1.length = 1) ∧
    (∀ j, j + 1 < batchCount data.length → (chunkAt data j).length = 25) ∧
    (0 < batchCount data.length →
      (chunkAt data (batchCount data.length - 1)).length =
        if data.length % 25 = 0 then 25 else data.length % 25) := by
  have htrace : (WriteRecords bw data).1 =
      (List.range (batchCount data.length)).map (chunkAt data) := by
    have h := writeRecordsAux_success bw data (batchCount data.length) 0
      (fun j _ => hbw _)
    simpa [WriteRecords] using congrArg Prod.fst h
  have hlen : (WriteRecords bw data).1.length = batchCount data.length := by
    rw [htrace]; simp
  refine ⟨htrace, hlen, ?_, ?_, ?_, ?_⟩
  · intro h0
    rw [hlen, h0]; decide
  · intro h1 h25
    rw [hlen]
    unfold batchCount
    omega
  · intro j hj
    have hj' : 25 * (j + 1) + 1 ≤ data.length + 1 := by
      unfold batchCount at hj; omega
    have hcond : j < batchCount data.length - 1 := by omega
    simp only [chunkAt, chunkAtL, if_pos hcond, List.length_take,
      List.length_drop]
    omega
  · intro hpos
    have hcond : ¬ (batchCount data.length - 1 < batchCount data.length - 1) :=
      lt_irrefl _
    simp only [chunkAt, chunkAtL, if_neg hcond, List.length_drop]
    unfold batchCount at hpos ⊢
    split_ifs with h
    · omega
    · omega

/-- Witness for C1 (amended) on a concrete 26-item sequence (two chunks:
25 items then 1 item). -/
theorem writeRecords_request_count_witness :
    (WriteRecords (fun _ => (none : Option String)) (List.range 26)).1 =
      (List.range (batchCount (List.range 26).length)).map
        (chunkAt (List.range 26)) ∧
    (WriteRecords (fun _ => (none : Option String))
        (List.range 26)).1.length = batchCount (List.range 26).length ∧
    ((List.range 26).length = 0 →
      (WriteRecords (fun _ => (none : Option String))
        (List.range 26)).1.length = 0) ∧
    (1 ≤ (List.range 26).length → (List.range 26).length ≤ 25 →
      (WriteRecords (fun _ => (none : Option String))
        (List.range 26)).1.length = 1) ∧
    (∀ j, j + 1 < batchCount (List.range 26).length →
      (chunkAt (List.range 26) j).length = 25) ∧
    (0 < batchCount (List.range 26).length →
      (chunkAt (List.range 26)
          (batchCount (List.range 26).length - 1)).length =
        if (List.range 26).length % 25 = 0 then 25
        else (List.range 26).length % 25) :=
  writeRecords_request_count (fun _ => none) (List.range 26) (fun _ => rfl)

/-! ## C3: WriteRecords in-order processing and first-error abort -/

/-- C3: `WriteMany` (`WriteRecords`) processes chunks strictly in input
order: it returns success (`none`) iff every chunk's batch-write succeeds;
on success the issued requests are exactly the chunks in order; and if the
batch-write for chunk `k` fails while all earlier chunks succeeded, the
function returns chunk `k`'s error and the request trace ends at chunk `k`
(no request is issued for any later chunk). -/
theorem writeRecords_order_abort {α ε : Type} (bw : List α → Option ε)
    (data : List α) :
    ((WriteRecords bw data).2 = none ↔
      ∀ j, j < batchCount data.length → bw (chunkAt data j) = none) ∧
    ((∀ j, j < batchCount data.length → bw (chunkAt data j) = none) →
      (WriteRecords bw data).1 =
        (List.range (batchCount data.length)).map (chunkAt data)) ∧
    (∀ k e, k < batchCount data.length → bw (chunkAt data k) = some e →
      (∀ j, j < k → bw (chunkAt data j) = none) →
      WriteRecords bw data =
        ((List.range (k + 1)).map (chunkAt data), some e)) := by
  have hsucc : (∀ j, j < batchCount data.length →
      bw (chunkAt data j) = none) →
      WriteRecords bw data =
        ((List.range (batchCount data.length)).map (chunkAt data), none) := by
    intro h
    have hx := writeRecordsAux_success bw data (batchCount data.length) 0
      (fun j hj => by simpa using h j hj)
    simpa [WriteRecords] using hx
  have hfailCor : ∀ k e, k < batchCount data.length →
      bw (chunkAt data k) = some e →
      (∀ j, j < k → bw (chunkAt data j) = none) →
      WriteRecords bw data =
        ((List.range (k + 1)).map (chunkAt data), some e) := by
    intro k e hk hf hok
    have hx := writeRecordsAux_firstFail bw data k (batchCount data.length) 0
      e hk (by simpa using hf) (fun j hj => by simpa using hok j hj)
    simpa [WriteRecords] using hx
  refine ⟨⟨?_, fun h => by rw [hsucc h]⟩,
    fun h => by rw [hsucc h], hfailCor⟩
  intro h2 j hjL
  by_contra hne
  have hjS : (bw (chunkAt data j)).isSome = true := by
    cases hx : bw (chunkAt data j) with
    | none => exact absurd hx hne
    | some e => rfl
  have hex : ∃ m, (bw (chunkAt data m)).isSome = true := ⟨j, hjS⟩
  set k := Nat.find hex with hkdef
  have hkS : (bw (chunkAt data k)).isSome = true := Nat.find_spec hex
  obtain ⟨e, he⟩ := Option.isSome_iff_exists.mp hkS
  have hkj : k ≤ j := Nat.find_min' hex hjS
  have hkL : k < batchCount data.length := lt_of_le_of_lt hkj hjL
  have hok : ∀ m, m < k → bw (chunkAt data m) = none := by
    intro m hm
    have hmin := Nat.find_min hex hm
    cases hx : bw (chunkAt data m) with
    | none => rfl
    | some e' => exact absurd (by rw [hx]; rfl) hmin
  have := hfailCor k e hkL he hok
  rw [this] at h2
  simp at h2

/-- Witness for C3 on a concrete 60-item sequence with a backend that
fails on the second chunk: the trace stops after chunk 1 and the second
chunk's error is returned. -/
theorem writeRecords_order_abort_witness :
    WriteRecords (fun c => if 25 ≤ c.headD 0 then some "boom"
        else (none : Option String)) (List.range 60) =
      ((List.range (1 + 1)).map (chunkAt (List.range 60)), some "boom") :=
  (writeRecords_order_abort
      (fun c => if 25 ≤ c.headD 0 then some "boom" else (none : Option String))
      (List.range 60)).2.2 1 "boom" (by decide) (by decide) (by decide)

/-! ## C4: WriteRecords on the empty sequence -/

/-- C4: `WriteMany` (`WriteRecords`) applied to the empty sequence returns
success (`none` error) and issues zero backend batch-write calls (empty
request trace). -/
theorem writeRecords_empty {α ε : Type} (bw : List α → Option ε) :
    WriteRecords bw ([] : List α) = ([], none) := by
  have h : batchCount (0 : Nat) = 0 := by decide
  unfold WriteRecords
  simp only [List.length_nil, h]
  rfl

/-! ## C6: WriteRecord conversion failure / put pass-through -/

/-- C6: if the `Payload` conversion fails, `WriteRecord` returns the
conversion error and issues no put-item call; if it succeeds, exactly one
put-item request (for the given table and item) is issued and the returned
error is exactly that call's error. -/
theorem writeRecord_conversion {ι ε : Type} (payload : Except ε ι)
    (put : ι → Option ε) (table : String) :
    (∀ e, payload = .error e → WriteRecord payload put table = ([], some e)) ∧
    (∀ item, payload = .ok item →
      WriteRecord payload put table = ([(table, item)], put item)) := by
  constructor
  · intro e he; subst he; rfl
  · intro item hi; subst hi; rfl

/-- Witness for C6 at concrete inputs (a failing and a succeeding
conversion). -/
theorem writeRecord_conversion_witness :
    WriteRecord (Except.error "bad" : Except String Nat) (fun _ => none) "t"
        = ([], some "bad") ∧
    WriteRecord (Except.ok 7 : Except String Nat) (fun _ => some "boom") "t"
        = ([("t", 7)], some "boom") :=
  ⟨(writeRecord_conversion (Except.error "bad") (fun _ => none) "t").1 "bad" rfl,
   (writeRecord_conversion (Except.ok 7) (fun _ => some "boom") "t").2 7 rfl⟩

/-! ## C7: AddNumber issues one update request -/

/-- C7: when the expression build succeeds, `AddNumber` issues exactly one
update-item request, whose update expression is the `add` of the given
delta to the named attribute, keyed by the supplied key mapping and bound
to the supplied table, and returns exactly the error of that single call
(`none` on success). -/
theorem addNumber_single_update {κ' ε : Type}
    (build : UpdateExprTree → Except ε Unit)
    (updateItem : UpdateItemIn κ' → Option ε) (table : String) (key : κ')
    (name : String) (number : Int)
    (hbuild : build (UpdateExprTree.add name number) = .ok ()) :
    AddNumber build updateItem table key name number =
      ([⟨table, key, UpdateExprTree.add name number⟩],
        updateItem ⟨table, key, UpdateExprTree.add name number⟩) := by
  unfold AddNumber
  rw [hbuild]

/-- Witness for C7 at a concrete table, key, attribute and delta. -/
theorem addNumber_single_update_witness :
    AddNumber (fun _ => Except.ok ()) (fun _ => (none : Option String))
        "tbl" (5 : Nat) "count" 3 =
      ([⟨"tbl", 5, UpdateExprTree.add "count" 3⟩],
        (fun _ => (none : Option String))
          (⟨"tbl", 5, UpdateExprTree.add "count" 3⟩ : UpdateItemIn Nat)) :=
  addNumber_single_update (fun _ => Except.ok ()) (fun _ => none)
    "tbl" 5 "count" 3 rfl

/-! ## C9: PrettyStructPrint never propagates -/

/-- C9: `PrettyStructPrint` returns no error to the caller (its result type
carries none); when marshalling fails it logs exactly the error, when it
succeeds it logs nothing, and in every case it writes exactly one line to
standard output. -/
theorem prettyStructPrint_total (marshal : Except String String) :
    (PrettyStructPrint marshal).2.length = 1 ∧
    (∀ e, marshal = .error e → (PrettyStructPrint marshal).1 = [e]) ∧
    (∀ s, marshal = .ok s → (PrettyStructPrint marshal).1 = []) := by
  refine ⟨?_, ?_, ?_⟩
  · cases marshal <;> rfl
  · intro e he; subst he; rfl
  · intro s hs; subst hs; rfl

/-- Witness for C9 at a failing and a succeeding marshal outcome. -/
theorem prettyStructPrint_total_witness :
    (PrettyStructPrint (Except.error "oops")).2.length = 1 ∧
    (PrettyStructPrint (Except.error "oops")).1 = ["oops"] ∧
    (PrettyStructPrint (Except.ok "txt")).2.length = 1 :=
  ⟨(prettyStructPrint_total (Except.error "oops")).1,
   (prettyStructPrint_total (Except.error "oops")).2.1 "oops" rfl,
   (prettyStructPrint_total (Except.ok "txt")).1⟩

/-! ## Helper lemmas: the query pagination loop -/

theorem queryAux_ok {ι κ ε : Type}
    (q : Nat → Option κ → Except ε (QueryResp ι κ)) (P : Nat → QueryResp ι κ) :
    ∀ m i fuel cursor acc trace, m + 1 ≤ fuel →
      (∀ j, j ≤ m → q (i + j) (cursorAt P (i + j)) = .ok (P (i + j))) →
      cursor = cursorAt P i →
      (∀ j, j < m → (P (i + j)).lastKey ≠ none) →
      (P (i + m)).lastKey = none →
      queryAux q fuel i cursor acc trace =
        some (trace ++ (List.range (m + 1)).map fun j => cursorAt P (i + j),
          acc ++ ((List.range (m + 1)).map fun j => (P (i + j)).items).flatten,
          none) := by
  intro m
  induction m with
  | zero =>
    intro i fuel cursor acc trace hfuel hq hcur _ hlast
    subst hcur
    cases fuel with
    | zero => omega
    | succ f =>
      have hq0 : q i (cursorAt P i) = .ok (P i) := by
        have hx := hq 0 (le_refl 0)
        simpa using hx
      have hl0 : (P i).lastKey = none := by simpa using hlast
      simp [queryAux, hq0, hl0, List.range_succ]
  | succ m ih =>
    intro i fuel cursor acc trace hfuel hq hcur hmid hlast
    subst hcur
    cases fuel with
    | zero => omega
    | succ f =>
      have hq0 : q i (cursorAt P i) = .ok (P i) := by
        have hx := hq 0 (Nat.zero_le _)
        simpa using hx
      have hne : (P i).lastKey ≠ none := by
        have hx := hmid 0 (Nat.succ_pos m)
        simpa using hx
      cases hk : (P i).lastKey with
      | none => exact absurd hk hne
      | some k =>
        have hq' : ∀ j, j ≤ m →
            q (i + 1 + j) (cursorAt P (i + 1 + j)) = .ok (P (i + 1 + j)) := by
          intro j hj
          have hx := hq (j + 1) (by omega)
          have he : i + (j + 1) = i + 1 + j := by omega
          rwa [he] at hx
        have hcur' : some k = cursorAt P (i + 1) := by
          show some k = (P i).lastKey
          rw [hk]
        have hmid' : ∀ j, j < m → (P (i + 1 + j)).lastKey ≠ none := by
          intro j hj
          have hx := hmid (j + 1) (by omega)
          have he : i + (j + 1) = i + 1 + j := by omega
          rwa [he] at hx
        have hlast' : (P (i + 1 + m)).lastKey = none := by
          have he : i + (m + 1) = i + 1 + m := by omega
          rwa [he] at hlast
        have hrec := ih (i + 1) f (some k) (acc ++ (P i).items)
          (trace ++ [cursorAt P i]) (by omega) hq' hcur' hmid' hlast'
        have hsTrace := range_map_shift (cursorAt P) (m + 1) i
        have hsItems : (P i).items ++
            ((List.range (m + 1)).map fun j => (P (i + 1 + j)).items).flatten =
            ((List.range (m + 1 + 1)).map fun j => (P (i + j)).items).flatten := by
          rw [← List.flatten_cons,
            range_map_shift (fun j => (P j).items) (m + 1) i]
        simp only [queryAux, hq0, hk, hrec]
        rw [List.append_assoc, List.append_assoc]
        simp only [List.singleton_append, List.cons_append, List.nil_append]
        rw [hsTrace, hsItems]

theorem queryAux_err {ι κ ε : Type}
    (q : Nat → Option κ → Except ε (QueryResp ι κ)) (P : Nat → QueryResp ι κ)
    (e : ε) :
    ∀ m i fuel cursor acc trace, m + 1 ≤ fuel →
      (∀ j, j < m → q (i + j) (cursorAt P (i + j)) = .ok (P (i + j))) →
      (∀ j, j < m → (P (i + j)).lastKey ≠ none) →
      cursor = cursorAt P i →
      q (i + m) (cursorAt P (i + m)) = .error e →
      queryAux q fuel i cursor acc trace =
        some (trace ++ (List.range (m + 1)).map fun j => cursorAt P (i + j),
          [], some e) := by
  intro m
  induction m with
  | zero =>
    intro i fuel cursor acc trace hfuel _ _ hcur herr
    subst hcur
    cases fuel with
    | zero => omega
    | succ f =>
      have he0 : q i (cursorAt P i) = .error e := by
        simpa using herr
      simp [queryAux, he0, List.range_succ]
  | succ m ih =>
    intro i fuel cursor acc trace hfuel hq hmid hcur herr
    subst hcur
    cases fuel with
    | zero => omega
    | succ f =>
      have hq0 : q i (cursorAt P i) = .ok (P i) := by
        have hx := hq 0 (Nat.succ_pos m)
        simpa using hx
      have hne : (P i).lastKey ≠ none := by
        have hx := hmid 0 (Nat.succ_pos m)
        simpa using hx
      cases hk : (P i).lastKey with
      | none => exact absurd hk hne
      | some k =>
        have hq' : ∀ j, j < m →
            q (i + 1 + j) (cursorAt P (i + 1 + j)) = .ok (P (i + 1 + j)) := by
          intro j hj
          have hx := hq (j + 1) (by omega)
          have he : i + (j + 1) = i + 1 + j := by omega
          rwa [he] at hx
        have hmid' : ∀ j, j < m → (P (i + 1 + j)).lastKey ≠ none := by
          intro j hj
          have hx := hmid (j + 1) (by omega)
          have he : i + (j + 1) = i + 1 + j := by omega
          rwa [he] at hx
        have hcur' : some k = cursorAt P (i + 1) := by
          show some k = (P i).lastKey
          rw [hk]
        have herr' : q (i + 1 + m) (cursorAt P (i + 1 + m)) = .error e := by
          have he : i + (m + 1) = i + 1 + m := by omega
          rwa [he] at herr
        have hrec := ih (i + 1) f (some k) (acc ++ (P i).items)
          (trace ++ [cursorAt P i]) (by omega) hq' hmid' hcur' herr'
        have hsTrace := range_map_shift (cursorAt P) (m + 1) i
        simp only [queryAux, hq0, hk, hrec]
        rw [List.append_assoc]
        simp only [List.singleton_append, List.cons_append, List.nil_append]
        rw [hsTrace]

theorem queryAux_term {ι κ ε : Type}
    (q : Nat → Option κ → Except ε (QueryResp ι κ)) (m : Nat)
    (hterm : ∀ j c, m ≤ j → IsTerminal (q j c)) :
    ∀ fuel i cursor acc trace, m ≤ i + fuel →
      queryAux q (fuel + 1) i cursor acc trace ≠ none := by
  intro fuel
  induction fuel with
  | zero =>
    intro i cursor acc trace hm
    cases hq : q i cursor with
    | error e => simp [queryAux, hq]
    | ok r =>
      have ht : IsTerminal (q i cursor) := hterm i cursor (by omega)
      rw [hq] at ht
      have hr : r.lastKey = none := ht
      simp [queryAux, hq, hr]
  | succ f ih =>
    intro i cursor acc trace hm
    cases hq : q i cursor with
    | error e => simp [queryAux, hq]
    | ok r =>
      cases hr : r.lastKey with
      | none => simp [queryAux, hq, hr]
      | some k =>
        simp only [queryAux, hq, hr]
        exact ih (i + 1) (some k) (acc ++ r.items) (trace ++ [cursor])
          (by omega)

/-! ## C2: query pagination concatenates pages in order -/

/-- C2: when the backend serves pages `P 0, ..., P (n-1)` where only the
last page has an absent (`nil`) continuation cursor, `QueryRecords` and
`QueryRecordWithFilter` return the concatenation of the pages' items in
order with no error, and issue exactly `n` query requests whose
`ExclusiveStartKey` trace is `cursorAt P 0, ..., cursorAt P (n-1)`: `none`
on the first request, and the previous page's `LastEvaluatedKey`
(`cursorAt P (j+1) = (P j).lastKey`) on every later one. -/
theorem query_pagination {ι κ ε : Type}
    (q : Nat → Option κ → Except ε (QueryResp ι κ)) (P : Nat → QueryResp ι κ)
    (n fuel : Nat) (hn : 0 < n) (hfuel : n ≤ fuel)
    (hq : ∀ i, i < n → q i (cursorAt P i) = .ok (P i))
    (hmid : ∀ i, i + 1 < n → (P i).lastKey ≠ none)
    (hlast : (P (n - 1)).lastKey = none) :
    QueryRecords (.ok ()) q fuel =
      some ((List.range n).map (cursorAt P),
        ((List.range n).map fun i => (P i).items).flatten, none) ∧
    QueryRecordWithFilter (.ok ()) q fuel =
      some ((List.range n).map (cursorAt P),
        ((List.range n).map fun i => (P i).items).flatten, none) ∧
    ((List.range n).map (cursorAt P)).length = n ∧
    (∀ j, cursorAt P (j + 1) = (P j).lastKey) := by
  have hx := queryAux_ok q P (n - 1) 0 fuel none [] []
    (by omega)
    (fun j hj => by simpa using hq j (by omega))
    rfl
    (fun j hj => by simpa using hmid j (by omega))
    (by simpa using hlast)
  have hn1 : n - 1 + 1 = n := by omega
  rw [hn1] at hx
  simp only [List.nil_append, Nat.zero_add] at hx
  exact ⟨hx, hx, by simp, fun j => rfl⟩

/-- Witness for C2: three concrete pages with items `[0]`, `[1]`, `[2]`,
linked by cursors `1`, `2`, and a `nil` cursor on the last page. -/
theorem query_pagination_witness :
    QueryRecords (.ok ())
        (fun i _ => Except.ok
          ((⟨[i], if i < 2 then some (i + 1) else none⟩ : QueryResp Nat Nat)))
        3 =
      some ((List.range 3).map
          (cursorAt fun i =>
            (⟨[i], if i < 2 then some (i + 1) else none⟩ : QueryResp Nat Nat)),
        ((List.range 3).map fun i =>
          ((⟨[i], if i < 2 then some (i + 1) else none⟩ :
            QueryResp Nat Nat)).items).flatten, (none : Option String)) ∧
    QueryRecordWithFilter (.ok ())
        (fun i _ => Except.ok
          ((⟨[i], if i < 2 then some (i + 1) else none⟩ : QueryResp Nat Nat)))
        3 =
      some ((List.range 3).map
          (cursorAt fun i =>
            (⟨[i], if i < 2 then some (i + 1) else none⟩ : QueryResp Nat Nat)),
        ((List.range 3).map fun i =>
          ((⟨[i], if i < 2 then some (i + 1) else none⟩ :
            QueryResp Nat Nat)).items).flatten, (none : Option String)) ∧
    ((List.range 3).map
        (cursorAt fun i =>
          (⟨[i], if i < 2 then some (i + 1) else none⟩ :
            QueryResp Nat Nat))).length = 3 ∧
    (∀ j, cursorAt (fun i =>
        (⟨[i], if i < 2 then some (i + 1) else none⟩ : QueryResp Nat Nat))
        (j + 1) =
      ((⟨[j], if j < 2 then some (j + 1) else none⟩ :
        QueryResp Nat Nat)).lastKey) :=
  query_pagination
    (fun i _ => Except.ok
      ((⟨[i], if i < 2 then some (i + 1) else none⟩ : QueryResp Nat Nat)))
    (fun i => (⟨[i], if i < 2 then some (i + 1) else none⟩ : QueryResp Nat Nat))
    3 3 (by decide) (by decide)
    (fun i _ => rfl)
    (fun i hi => by
      have h2 : i < 2 := by omega
      show (if i < 2 then some (i + 1) else none) ≠ none
      simp [h2])
    (by decide)

/-! ## C5: a failing page request discards partial results -/

/-- C5: if the requests for pages `0, ..., k-1` succeed (each page
carrying a continuation cursor) and the request for page `k` fails with
`e`, then `QueryRecords` and `QueryRecordWithFilter` return the error `e`
together with the empty (`nil`) item list — the items of the earlier
successful pages are discarded — after issuing exactly `k + 1` requests. -/
theorem query_error_discards {ι κ ε : Type}
    (q : Nat → Option κ → Except ε (QueryResp ι κ)) (P : Nat → QueryResp ι κ)
    (k fuel : Nat) (e : ε) (hfuel : k + 1 ≤ fuel)
    (hq : ∀ j, j < k → q j (cursorAt P j) = .ok (P j))
    (hmid : ∀ j, j < k → (P j).lastKey ≠ none)
    (herr : q k (cursorAt P k) = .error e) :
    QueryRecords (.ok ()) q fuel =
      some ((List.range (k + 1)).map (cursorAt P), [], some e) ∧
    QueryRecordWithFilter (.ok ()) q fuel =
      some ((List.range (k + 1)).map (cursorAt P), [], some e) ∧
    ((List.range (k + 1)).map (cursorAt P)).length = k + 1 := by
  have hx := queryAux_err q P e k 0 fuel none [] []
    (by omega)
    (fun j hj => by simpa using hq j hj)
    (fun j hj => by simpa using hmid j hj)
    rfl
    (by simpa using herr)
  simp only [List.nil_append, Nat.zero_add] at hx
  exact ⟨hx, hx, by simp⟩

/-- Witness for C5: the first page succeeds with a continuation cursor,
the second request fails; the result is the error with an empty item
list. -/
theorem query_error_discards_witness :
    QueryRecords (.ok ())
        (fun i _ => if i = 0
          then Except.ok ((⟨[7], some 1⟩ : QueryResp Nat Nat))
          else Except.error "fail")
        2 =
      some ((List.range (1 + 1)).map
          (cursorAt fun _ => (⟨[7], some 1⟩ : QueryResp Nat Nat)),
        [], some "fail") ∧
    QueryRecordWithFilter (.ok ())
        (fun i _ => if i = 0
          then Except.ok ((⟨[7], some 1⟩ : QueryResp Nat Nat))
          else Except.error "fail")
        2 =
      some ((List.range (1 + 1)).map
          (cursorAt fun _ => (⟨[7], some 1⟩ : QueryResp Nat Nat)),
        [], some "fail") ∧
    ((List.range (1 + 1)).map
        (cursorAt fun _ => (⟨[7], some 1⟩ : QueryResp Nat Nat))).length =
      1 + 1 :=
  query_error_discards
    (fun i _ => if i = 0
      then Except.ok ((⟨[7], some 1⟩ : QueryResp Nat Nat))
      else Except.error "fail")
    (fun _ => (⟨[7], some 1⟩ : QueryResp Nat Nat))
    1 2 "fail" (by decide)
    (fun j hj => by
      have h0 : j = 0 := by omega
      subst h0
      rfl)
    (fun j _ => by
      show some 1 ≠ none
      simp)
    rfl

/-! ## C8: the pagination loop is bounded -/

/-- C8: if after finitely many calls every backend response is terminal
(an error or a page with a `nil` `LastEvaluatedKey`), the pagination loops
of `QueryRecords` and `QueryRecordWithFilter` terminate: with fuel `m + 1`
the loop has already stopped (the result is not the still-running `none`).
-/
theorem query_loop_terminates {ι κ ε : Type}
    (q : Nat → Option κ → Except ε (QueryResp ι κ)) (m : Nat)
    (hterm : ∀ j c, m ≤ j → IsTerminal (q j c)) :
    QueryRecords (.ok ()) q (m + 1) ≠ none ∧
    QueryRecordWithFilter (.ok ()) q (m + 1) ≠ none := by
  constructor
  · show queryAux q (m + 1) 0 none [] [] ≠ none
    exact queryAux_term q m hterm m 0 none [] [] (by omega)
  · show queryAux q (m + 1) 0 none [] [] ≠ none
    exact queryAux_term q m hterm m 0 none [] [] (by omega)

/-- Witness for C8: a backend whose every response is a final page. -/
theorem query_loop_terminates_witness :
    QueryRecords (.ok ())
        (fun _ _ => Except.ok ((⟨[], none⟩ : QueryResp Nat Nat)))
        (0 + 1) ≠ (none : Option (List (Option Nat) × List Nat × Option String)) ∧
    QueryRecordWithFilter (.ok ())
        (fun _ _ => Except.ok ((⟨[], none⟩ : QueryResp Nat Nat)))
        (0 + 1) ≠ (none : Option (List (Option Nat) × List Nat × Option String)) :=
  query_loop_terminates
    (fun _ _ => Except.ok ((⟨[], none⟩ : QueryResp Nat Nat))) 0
    (fun _ _ _ => rfl)

/-! ## C10: expression build failure short-circuits -/

/-- C10: if building the expression fails, `QueryRecords` and
`QueryRecordWithFilter` return that error with a nil result and an empty
request trace (zero query requests), and `AddNumber` returns the build
error with an empty trace (no update-item call). -/
theorem build_failure_no_request {ι κ κ' ε : Type} (e : ε)
    (q : Nat → Option κ → Except ε (QueryResp ι κ)) (fuel : Nat)
    (build : UpdateExprTree → Except ε Unit)
    (updateItem : UpdateItemIn κ' → Option ε) (table : String) (key : κ')
    (name : String) (number : Int)
    (hbuild : build (UpdateExprTree.add name number) = .error e) :
    QueryRecords (.error e) q fuel = some ([], [], some e) ∧
    QueryRecordWithFilter (.error e) q fuel = some ([], [], some e) ∧
    AddNumber build updateItem table key name number = ([], some e) := by
  refine ⟨rfl, rfl, ?_⟩
  unfold AddNumber
  rw [hbuild]

/-- Witness for C10 at concrete inputs. -/
theorem build_failure_no_request_witness :
    QueryRecords (Except.error "bad")
        (fun _ _ => Except.ok (⟨[], none⟩ : QueryResp Nat Nat)) 4
        = some ([], [], some "bad") ∧
    QueryRecordWithFilter (Except.error "bad")
        (fun _ _ => Except.ok (⟨[], none⟩ : QueryResp Nat Nat)) 4
        = some ([], [], some "bad") ∧
    AddNumber (fun _ => Except.error "bad")
        (fun _ => (none : Option String)) "tbl" (0 : Nat) "n" 1
        = ([], some "bad") :=
  build_failure_no_request "bad"
    (fun _ _ => Except.ok (⟨[], none⟩ : QueryResp Nat Nat)) 4
    (fun _ => Except.error "bad") (fun _ => none) "tbl" 0 "n" 1 rfl

end Acloud
